import Mathlib

/-!
A shallow embedding of the token-ownership worker (`src/lib.rs`), covering the
log-processing pipeline: contract classification (cache plus `supportsInterface`
probe), per-standard decoding and store mutations, the block cursor loop, and
the head-tracker cell.

Modelling conventions:
* 160-bit addresses and 256-bit topics are `Nat`; `Address::from(H256)` keeps
  the low 160 bits, modelled by `addrOf`.
* ABI-encoded event data is modelled at the token level (`AbiValue`), matching
  the `ethabi::decode` call sites, which only ever request `Uint(256)` and
  `Array(Uint(256))` schemas.
* `quantity` is an `f64` in the source, produced via `U256::as_u128()` (which
  panics above `u128::MAX`) followed by `to_f64()`. Claims under study concern
  only sign and algebraic structure, so quantities are embedded as exact
  integers; the `as_u128` overflow panic is kept (`asU128`).
* `token_id` is stored as the decimal string of the decoded `uint256`; decimal
  printing is injective, so it is embedded as the `Nat` itself.
* Rust index panics (`log.topics[i]`) and `ethabi` decode failures become
  `Except Err` values; `continue` paths (skipped logs) are `ok` with the state
  unchanged.
* Mongo collections are lists of documents in insertion order; `find_one` and
  `update_one` act on the first matching document, `update_one` with
  `upsert: true` appends a document built from the filter when nothing matches,
  and `delete_many` removes every matching document.
-/

/-- Keccak-256 of `Transfer(address,address,uint256)` (ERC-20 / ERC-721). -/
def sigTransfer : Nat :=
  0xddf252ad1be2c89b69c2b068fc378daa952ba7f163c4a11628f55a4df523b3ef

/-- Keccak-256 of `TransferSingle(address,address,address,uint256,uint256)`. -/
def sigTransferSingle : Nat :=
  0xc3d58168c5ae7397731d063d5bbf3d657854427343f4c083240f7aacaa2d0f62

/-- Keccak-256 of `TransferBatch(address,address,address,uint256[],uint256[])`. -/
def sigTransferBatch : Nat :=
  0x4a39dc06d4c0dbc64b70af90fd698a233a518aa5d07e595d983b8c0526c8f7fb

/-- ERC-165 interface id probed for ERC-721 (`0x80ac58cd`). -/
def erc721InterfaceId : Nat := 0x80ac58cd

/-- ERC-165 interface id probed for ERC-1155 (`0xd9b67a26`). -/
def erc1155InterfaceId : Nat := 0xd9b67a26

/-- `Address::from(H256)`: the low 160 bits of a 256-bit topic word. -/
def addrOf (t : Nat) : Nat := t % 2 ^ 160

/-- `Address::default()`, the zero address. -/
def zeroAddress : Nat := 0

/-- The `token_type` strings stored in `contract_addresses`. -/
inductive TokenType where
  | erc20
  | erc721
  | erc1155
  deriving DecidableEq, Repr

/-- A decoded ABI token, as returned by `ethabi::decode` for the schemas the
worker requests: `Uint(256)` or `Array(Uint(256))`. -/
inductive AbiValue where
  | uint (n : Nat)
  | arr (ns : List Nat)
  deriving DecidableEq, Repr

/-- A chain log: emitting contract address, indexed topics, ABI data. -/
structure Log where
  address : Nat
  topics : List Nat
  data : List AbiValue
  deriving DecidableEq, Repr

/-- A `token_ownerships` document. `token_id` is `none` for ERC-20 rows, whose
upsert filter carries no `token_id` field. -/
structure Row where
  contract : Nat
  token_id : Option Nat
  owner : Nat
  quantity : Int
  deriving DecidableEq, Repr

/-- The two collections the worker mutates: `contract_addresses` (the
classification cache, keyed by address) and `token_ownerships`. -/
structure WState where
  cache : List (Nat × TokenType)
  owns : List Row
  deriving DecidableEq, Repr

/-- Panics and aborts of the per-log processing: out-of-bounds topic access,
`ethabi` decode failure, `U256::as_u128` overflow. -/
inductive Err where
  | oob
  | decodeFail
  | u128Overflow
  deriving DecidableEq, Repr

/-- `find_one` on `contract_addresses` by address: first matching document. -/
def lookupCache (cache : List (Nat × TokenType)) (a : Nat) : Option TokenType :=
  (cache.find? (fun p => p.1 == a)).map (fun p => p.2)

/-- `update_one` with `$set token_type` and `upsert: true` on
`contract_addresses`: rewrite the first document matching the address, append a
fresh one when none matches. -/
def cacheUpsert : List (Nat × TokenType) → Nat → TokenType → List (Nat × TokenType)
  | [], a, tt => [(a, tt)]
  | p :: ps, a, tt => if p.1 == a then (a, tt) :: ps else p :: cacheUpsert ps a tt

/-- Whether a `token_ownerships` document matches a filter on
`contract_address`, `owner`, and (when present) `token_id`. A filter without a
`token_id` key (the ERC-20 case) matches any document. -/
def rowMatches (c o : Nat) (tid : Option Nat) (r : Row) : Bool :=
  r.contract == c && r.owner == o &&
    (match tid with
     | none => true
     | some t => r.token_id == some t)

/-- `update_one` with `$inc quantity` and `upsert: true`: increment the first
matching document, or append a document built from the filter with
`quantity = d` when none matches. -/
def updateOneInc (c o : Nat) (tid : Option Nat) (d : Int) : List Row → List Row
  | [] => [⟨c, tid, o, d⟩]
  | r :: rs =>
    if rowMatches c o tid r then { r with quantity := r.quantity + d } :: rs
    else r :: updateOneInc c o tid d rs

/-- `delete_many` by `(contract_address, owner, token_id)` (ERC-721 transfer). -/
def deleteByOwnerToken (c o tid : Nat) (rows : List Row) : List Row :=
  rows.filter (fun r => !(r.contract == c && r.owner == o && r.token_id == some tid))

/-- `delete_many` by `(contract_address, token_id)`, any owner (burns). -/
def deleteByToken (c tid : Nat) (rows : List Row) : List Row :=
  rows.filter (fun r => !(r.contract == c && r.token_id == some tid))

/-- `insert_one`: append the document. -/
def insertOne (r : Row) (rows : List Row) : List Row := rows ++ [r]

/-- `log.topics[i]`: Rust indexing, panicking (erroring) out of bounds. -/
def topic (log : Log) (i : Nat) : Except Err Nat :=
  match log.topics[i]? with
  | some t => .ok t
  | none => .error .oob

/-- `decode(&[Uint(256)], data)` followed by the `Token::Uint` pattern match. -/
def decodeUint : List AbiValue → Except Err Nat
  | [.uint v] => .ok v
  | _ => .error .decodeFail

/-- `decode(&[Uint(256), Uint(256)], data)` and the `(Uint, Uint)` match. -/
def decodeUintPair : List AbiValue → Except Err (Nat × Nat)
  | [.uint a, .uint b] => .ok (a, b)
  | _ => .error .decodeFail

/-- `decode(&[Array(Uint(256)), Array(Uint(256))], data)` and the
`(Array, Array)` match. -/
def decodeTwoArrays : List AbiValue → Except Err (List Nat × List Nat)
  | [.arr xs, .arr ys] => .ok (xs, ys)
  | _ => .error .decodeFail

/-- `U256::as_u128()`: the value itself below `2^128`, a panic above. -/
def asU128 (v : Nat) : Except Err Nat :=
  if v < 2 ^ 128 then .ok v else .error .u128Overflow

/-- The `TransferBatch` pairing loop: iterate over `token_ids`, index
`quantities[index]` (panicking when `values` is shorter), and convert each
quantity through `as_u128`. Extra trailing `values` entries are never read. -/
def batchPairs : List Nat → List Nat → Except Err (List (Nat × Nat))
  | [], _ => .ok []
  | _ :: _, [] => .error .oob
  | i :: is, v :: vs =>
    match asU128 v with
    | .error e => .error e
    | .ok q =>
      match batchPairs is vs with
      | .error e => .error e
      | .ok rest => .ok ((i, q) :: rest)

/-- Outcome of the classification step for one log. -/
inductive ClassResult where
  | found (tt : TokenType)
  | unknown
  | skip
  deriving DecidableEq, Repr

/-- The contract classifier (`lib.rs` lines 155-230): cache lookup first; then
the shape heuristic on topic 0 and the topic count, with an on-chain
`supportsInterface` probe for ERC-721 and ERC-1155. `probe a iface` is the
`eth_call` oracle: `none` models a failed call (the log is skipped), `some b`
the returned boolean. -/
def classify (probe : Nat → Nat → Option Bool) (cache : List (Nat × TokenType))
    (log : Log) : Except Err ClassResult :=
  match lookupCache cache log.address with
  | some tt => .ok (.found tt)
  | none =>
    match topic log 0 with
    | .error e => .error e
    | .ok t0 =>
      if t0 == sigTransfer && log.topics.length == 3 then
        .ok (.found .erc20)
      else if t0 == sigTransfer && log.topics.length == 4 then
        match probe log.address erc721InterfaceId with
        | none => .ok .skip
        | some b => .ok (if b then .found .erc721 else .unknown)
      else if t0 == sigTransferSingle || t0 == sigTransferBatch then
        match probe log.address erc1155InterfaceId with
        | none => .ok .skip
        | some b => .ok (if b then .found .erc1155 else .unknown)
      else .ok .unknown

/-- The per-pair application loop of the ERC-1155 branch (`lib.rs` lines
405-454): for each decoded `(id, value)` pair, read `from` (topic 2) and `to`
(topic 3); on a transfer with positive value perform the two `$inc` upserts, on
a burn (`to == 0`, `from != 0`) delete every row of `(contract, token_id)`. -/
def applyPairs (log : Log) : List (Nat × Nat) → List Row → Except Err (List Row)
  | [], rows => .ok rows
  | (tid, q) :: rest, rows =>
    match topic log 2 with
    | .error e => .error e
    | .ok t2 =>
      match topic log 3 with
      | .error e => .error e
      | .ok t3 =>
        let rows' :=
          if addrOf t2 != zeroAddress && addrOf t3 != zeroAddress then
            if 0 < q then
              updateOneInc log.address (addrOf t3) (some tid) (q : Int)
                (updateOneInc log.address (addrOf t2) (some tid) (-(q : Int)) rows)
            else rows
          else if addrOf t3 == zeroAddress && addrOf t2 != zeroAddress then
            deleteByToken log.address tid rows
          else rows
        applyPairs log rest rows'

/-- Processing of a single log (`lib.rs` lines 139-458): classify, skip on
`unknown`/`skip`, otherwise upsert the classification into the cache and run
the per-standard branch. In the ERC-1155 branch the `TransferSingle` arm only
decodes its `(id, value)` pair: the application loop is nested inside the
`TransferBatch` arm in the source, so a `TransferSingle` log never touches
`token_ownerships`. -/
def processLog (probe : Nat → Nat → Option Bool) (st : WState) (log : Log) :
    Except Err WState :=
  match classify probe st.cache log with
  | .error e => .error e
  | .ok .skip => .ok st
  | .ok .unknown => .ok st
  | .ok (.found tt) =>
    let cache := cacheUpsert st.cache log.address tt
    match tt with
    | .erc20 =>
      match topic log 1 with
      | .error e => .error e
      | .ok t1 =>
        if addrOf t1 != zeroAddress then
          match decodeUint log.data with
          | .error e => .error e
          | .ok dq =>
            match asU128 dq with
            | .error e => .error e
            | .ok q =>
              if 0 < q then
                match topic log 2 with
                | .error e => .error e
                | .ok t2 =>
                  .ok ⟨cache,
                    updateOneInc log.address (addrOf t2) none (q : Int)
                      (updateOneInc log.address (addrOf t1) none (-(q : Int)) st.owns)⟩
              else .ok ⟨cache, st.owns⟩
        else .ok ⟨cache, st.owns⟩
    | .erc721 =>
      match topic log 3 with
      | .error e => .error e
      | .ok t3 =>
        match topic log 1 with
        | .error e => .error e
        | .ok t1 =>
          match topic log 2 with
          | .error e => .error e
          | .ok t2 =>
            if addrOf t1 != zeroAddress && addrOf t2 != zeroAddress then
              .ok ⟨cache,
                insertOne ⟨log.address, some t3, addrOf t2, 1⟩
                  (deleteByOwnerToken log.address (addrOf t1) t3 st.owns)⟩
            else if addrOf t2 == zeroAddress then
              .ok ⟨cache, deleteByToken log.address t3 st.owns⟩
            else .ok ⟨cache, st.owns⟩
    | .erc1155 =>
      match topic log 0 with
      | .error e => .error e
      | .ok t0 =>
        if t0 == sigTransferSingle then
          match decodeUintPair log.data with
          | .error e => .error e
          | .ok (_, v) =>
            match asU128 v with
            | .error e => .error e
            | .ok _ => .ok ⟨cache, st.owns⟩
        else if t0 == sigTransferBatch then
          match decodeTwoArrays log.data with
          | .error e => .error e
          | .ok (ids, vals) =>
            match batchPairs ids vals with
            | .error e => .error e
            | .ok pairs =>
              match applyPairs log pairs st.owns with
              | .error e => .error e
              | .ok owns => .ok ⟨cache, owns⟩
        else .ok ⟨cache, st.owns⟩

/-- Processing of a block's log list, in node-returned order. -/
def processLogs (probe : Nat → Nat → Option Bool) : WState → List Log → Except Err WState
  | st, [] => .ok st
  | st, l :: ls =>
    match processLog probe st l with
    | .error e => .error e
    | .ok st' => processLogs probe st' ls

/-- The logs worker's mutable state: the block cursor and the two collections. -/
structure LoopState where
  cursor : Nat
  st : WState
  deriving DecidableEq, Repr

/-- `current_block` starts at the compiled-in genesis block `14282071`, over
empty collections. -/
def initialLoopState : LoopState := ⟨14282071, ⟨[], []⟩⟩

/-- Result of one `eth_getLogs` call for the current block. -/
inductive FetchResult where
  | ok (logs : List Log)
  | err
  deriving DecidableEq, Repr

/-- One iteration of the logs worker loop (`lib.rs` lines 109-471): with no
known head, or with `cursor > head`, wait (state unchanged); with a failed log
fetch, retry the same block (state unchanged); otherwise process every log of
the block and advance the cursor by exactly 1. -/
def procStep (head : Option Nat) (fetch : FetchResult)
    (probe : Nat → Nat → Option Bool) (ls : LoopState) : Except Err LoopState :=
  match head with
  | none => .ok ls
  | some h =>
    if ls.cursor ≤ h then
      match fetch with
      | .err => .ok ls
      | .ok logs =>
        match processLogs probe ls.st logs with
        | .error e => .error e
        | .ok st' => .ok ⟨ls.cursor + 1, st'⟩
    else .ok ls

/-- The shared head cell starts empty. -/
def initialHeadCell : Option Nat := none

/-- One head-tracker iteration (`lib.rs` lines 77-88): a failed
`eth_blockNumber` leaves the cell unchanged (`continue`), a successful one
overwrites it with the fetched value. -/
def headUpdate (cell : Option Nat) (fetched : Option Nat) : Option Nat :=
  match fetched with
  | none => cell
  | some v => some v

/-- A run of head-tracker iterations over a list of fetch results. -/
def headRun (cell : Option Nat) (us : List (Option Nat)) : Option Nat :=
  us.foldl headUpdate cell

/-- Whether a row belongs to a given `(contract, token_id)` pair. -/
def rowKey (c tid : Nat) (r : Row) : Bool :=
  r.contract == c && r.token_id == some tid

/-- Number of `token_ownerships` rows for a given `(contract, token_id)`. -/
def tokenRowCount (rows : List Row) (c tid : Nat) : Nat :=
  (rows.filter (rowKey c tid)).length

/-- A `supportsInterface` oracle that always answers `true`. -/
def probeAllTrue : Nat → Nat → Option Bool := fun _ _ => some true

/-- A `supportsInterface` oracle whose `eth_call` always fails. -/
def probeAllFail : Nat → Nat → Option Bool := fun _ _ => none

/-- Scenario S5 of the spec: `TransferSingle` from contract `100`, operator `5`,
`from = 1`, `to = 2`, data `(id = 9, value = 5)`. -/
def s5TransferSingleLog : Log := ⟨100, [sigTransferSingle, 5, 1, 2], [.uint 9, .uint 5]⟩

/-- An ERC-20 `Transfer` with `from = 1`, `to = 2` and decoded value `0`. -/
def erc20ZeroValueLog : Log := ⟨100, [sigTransfer, 1, 2], [.uint 0]⟩

/-- An ERC-20 `Transfer` with `from = 1`, `to = 2` and decoded value `50`. -/
def erc20PositiveLog : Log := ⟨100, [sigTransfer, 1, 2], [.uint 50]⟩

/-- An ERC-721 `Transfer` of token `7` from `1` to `2` on contract `100`. -/
def erc721TransferAB : Log := ⟨100, [sigTransfer, 1, 2, 7], []⟩

/-- An ERC-721 `Transfer` of token `7` from `3` to `4` on contract `100`:
`3` is not the recorded owner after `erc721TransferAB` has been applied. -/
def erc721TransferCD : Log := ⟨100, [sigTransfer, 3, 4, 7], []⟩

/-! ## Helper lemmas -/

theorem classify_cached {probe : Nat → Nat → Option Bool} {cache : List (Nat × TokenType)}
    {log : Log} {tt : TokenType} (h : lookupCache cache log.address = some tt) :
    classify probe cache log = .ok (.found tt) := by
  unfold classify
  rw [h]

theorem lookupCache_nil (b : Nat) : lookupCache [] b = none := rfl

theorem lookupCache_cons (p : Nat × TokenType) (ps : List (Nat × TokenType)) (b : Nat) :
    lookupCache (p :: ps) b = if p.1 = b then some p.2 else lookupCache ps b := by
  by_cases h : p.1 = b
  · simp [lookupCache, List.find?_cons_of_pos, h]
  · simp [lookupCache, List.find?_cons_of_neg, h]

theorem lookupCache_cacheUpsert_self (cache : List (Nat × TokenType)) (a : Nat)
    (tt : TokenType) : lookupCache (cacheUpsert cache a tt) a = some tt := by
  induction cache with
  | nil => simp [cacheUpsert, lookupCache_cons]
  | cons p ps ih =>
    by_cases h : p.1 = a
    · simp [cacheUpsert, h, lookupCache_cons]
    · simp [cacheUpsert, h, lookupCache_cons, ih]

theorem lookupCache_cacheUpsert_ne (cache : List (Nat × TokenType)) {a b : Nat}
    (tt : TokenType) (h : b ≠ a) :
    lookupCache (cacheUpsert cache a tt) b = lookupCache cache b := by
  induction cache with
  | nil => simp [cacheUpsert, lookupCache_cons, lookupCache_nil, Ne.symm h]
  | cons p ps ih =>
    by_cases hp : p.1 = a
    · subst hp
      simp [cacheUpsert, lookupCache_cons, Ne.symm h]
    · simp [cacheUpsert, hp, lookupCache_cons, ih]

theorem processLog_cache_shape {probe : Nat → Nat → Option Bool} {st : WState} {log : Log}
    {st' : WState} (hstep : processLog probe st log = .ok st') :
    st'.cache = st.cache ∨
      ∃ tt, classify probe st.cache log = .ok (.found tt) ∧
        st'.cache = cacheUpsert st.cache log.address tt := by
  unfold processLog at hstep
  cases hclass : classify probe st.cache log with
  | error e => rw [hclass] at hstep; exact absurd hstep (by simp)
  | ok cr =>
    rw [hclass] at hstep
    cases cr with
    | skip => cases hstep; exact Or.inl rfl
    | unknown => cases hstep; exact Or.inl rfl
    | found tt =>
      refine Or.inr ⟨tt, rfl, ?_⟩
      cases tt <;> dsimp only at hstep <;>
        (repeat' split at hstep) <;>
        cases hstep <;> rfl

theorem tokenRowCount_nil (c tid : Nat) : tokenRowCount [] c tid = 0 := rfl

theorem tokenRowCount_cons (r : Row) (rows : List Row) (c tid : Nat) :
    tokenRowCount (r :: rows) c tid =
      (if rowKey c tid r then 1 else 0) + tokenRowCount rows c tid := by
  by_cases h : rowKey c tid r
  · simp [tokenRowCount, List.filter_cons, h, Nat.add_comm]
  · simp [tokenRowCount, List.filter_cons, h]

theorem tokenRowCount_filter_eq (p : Row → Bool) (rows : List Row) (c tid : Nat)
    (h : ∀ r ∈ rows, rowKey c tid r = true → p r = true) :
    tokenRowCount (rows.filter p) c tid = tokenRowCount rows c tid := by
  induction rows with
  | nil => rfl
  | cons r rs ih =>
    have ih' := ih (fun r hr => h r (List.mem_cons_of_mem _ hr))
    by_cases hp : p r
    · simp [List.filter_cons, hp, tokenRowCount_cons, ih']
    · have hk : ¬ rowKey c tid r = true := fun hkey =>
        hp (h r (List.mem_cons_self _ _) hkey)
      simp [List.filter_cons, hp, tokenRowCount_cons, hk, ih']

theorem tokenRowCount_filter_zero (p : Row → Bool) (rows : List Row) (c tid : Nat)
    (h : ∀ r ∈ rows, rowKey c tid r = true → p r = false) :
    tokenRowCount (rows.filter p) c tid = 0 := by
  induction rows with
  | nil => rfl
  | cons r rs ih =>
    have ih' := ih (fun r hr => h r (List.mem_cons_of_mem _ hr))
    by_cases hp : p r
    · have hk : ¬ rowKey c tid r = true := fun hkey => by
        have hf := h r (List.mem_cons_self _ _) hkey
        rw [hp] at hf
        simp at hf
      simp [List.filter_cons, hp, tokenRowCount_cons, hk, ih']
    · simp [List.filter_cons, hp, ih']

theorem tokenRowCount_insertOne (r : Row) (rows : List Row) (c tid : Nat) :
    tokenRowCount (insertOne r rows) c tid =
      tokenRowCount rows c tid + (if rowKey c tid r then 1 else 0) := by
  by_cases h : rowKey c tid r
  · simp [insertOne, tokenRowCount, List.filter_append, h]
  · simp [insertOne, tokenRowCount, List.filter_append, h]

theorem tokenRowCount_updateOneInc_ne {ca c : Nat} (h : ca ≠ c) (o : Nat)
    (tid' : Option Nat) (d : Int) (rows : List Row) (tid : Nat) :
    tokenRowCount (updateOneInc ca o tid' d rows) c tid = tokenRowCount rows c tid := by
  induction rows with
  | nil => simp [updateOneInc, tokenRowCount_cons, tokenRowCount_nil, rowKey, h]
  | cons r rs ih =>
    by_cases hm : rowMatches ca o tid' r
    · simp [updateOneInc, hm, tokenRowCount_cons, rowKey]
    · simp [updateOneInc, hm, tokenRowCount_cons, ih]

theorem tokenRowCount_deleteByOwnerToken_ne {ca c : Nat} (h : ca ≠ c) (o tid' : Nat)
    (rows : List Row) (tid : Nat) :
    tokenRowCount (deleteByOwnerToken ca o tid' rows) c tid = tokenRowCount rows c tid := by
  refine tokenRowCount_filter_eq _ rows c tid (fun r _ hkey => ?_)
  simp only [rowKey, Bool.and_eq_true, beq_iff_eq] at hkey
  simp [hkey.1, Ne.symm h]

theorem tokenRowCount_deleteByToken_ne {ca c : Nat} (h : ca ≠ c) (tid' : Nat)
    (rows : List Row) (tid : Nat) :
    tokenRowCount (deleteByToken ca tid' rows) c tid = tokenRowCount rows c tid := by
  refine tokenRowCount_filter_eq _ rows c tid (fun r _ hkey => ?_)
  simp only [rowKey, Bool.and_eq_true, beq_iff_eq] at hkey
  simp [hkey.1, Ne.symm h]

theorem tokenRowCount_deleteByToken_self (c tid : Nat) (rows : List Row) :
    tokenRowCount (deleteByToken c tid rows) c tid = 0 := by
  refine tokenRowCount_filter_zero _ rows c tid (fun r _ hkey => ?_)
  simp only [rowKey, Bool.and_eq_true, beq_iff_eq] at hkey
  simp [hkey.1, hkey.2]

theorem tokenRowCount_deleteByOwnerToken_self (c o tid : Nat) (rows : List Row)
    (h : ∀ r ∈ rows, rowKey c tid r = true → r.owner = o) :
    tokenRowCount (deleteByOwnerToken c o tid rows) c tid = 0 := by
  refine tokenRowCount_filter_zero _ rows c tid (fun r hr hkey => ?_)
  have ho := h r hr hkey
  simp only [rowKey, Bool.and_eq_true, beq_iff_eq] at hkey
  simp [hkey.1, hkey.2, ho]

theorem tokenRowCount_deleteByOwnerToken_other {tid' tid : Nat} (h : tid' ≠ tid)
    (c o : Nat) (rows : List Row) :
    tokenRowCount (deleteByOwnerToken c o tid' rows) c tid = tokenRowCount rows c tid := by
  refine tokenRowCount_filter_eq _ rows c tid (fun r _ hkey => ?_)
  simp only [rowKey, Bool.and_eq_true, beq_iff_eq] at hkey
  simp [hkey.2, Ne.symm h]

theorem tokenRowCount_deleteByToken_other {tid' tid : Nat} (h : tid' ≠ tid) (c : Nat)
    (rows : List Row) :
    tokenRowCount (deleteByToken c tid' rows) c tid = tokenRowCount rows c tid := by
  refine tokenRowCount_filter_eq _ rows c tid (fun r _ hkey => ?_)
  simp only [rowKey, Bool.and_eq_true, beq_iff_eq] at hkey
  simp [hkey.2, Ne.symm h]

theorem applyPairs_tokenRowCount_ne {log : Log} {c : Nat} (hne : log.address ≠ c) :
    ∀ (pairs : List (Nat × Nat)) (rows rows' : List Row),
      applyPairs log pairs rows = .ok rows' →
      ∀ tid, tokenRowCount rows' c tid = tokenRowCount rows c tid := by
  intro pairs
  induction pairs with
  | nil =>
    intro rows rows' hp tid
    cases hp
    rfl
  | cons pq rest ih =>
    rcases pq with ⟨ptid, q⟩
    intro rows rows' hp tid
    unfold applyPairs at hp
    cases h2 : topic log 2 with
    | error e => rw [h2] at hp; cases hp
    | ok t2 =>
      rw [h2] at hp
      cases h3 : topic log 3 with
      | error e => rw [h3] at hp; cases hp
      | ok t3 =>
        rw [h3] at hp
        dsimp only at hp
        rw [ih _ _ hp tid]
        by_cases hc1 : (addrOf t2 != zeroAddress && addrOf t3 != zeroAddress) = true
        · rw [if_pos hc1]
          by_cases hq : 0 < q
          · rw [if_pos hq, tokenRowCount_updateOneInc_ne hne, tokenRowCount_updateOneInc_ne hne]
          · rw [if_neg hq]
        · rw [if_neg hc1]
          by_cases hc2 : (addrOf t3 == zeroAddress && addrOf t2 != zeroAddress) = true
          · rw [if_pos hc2, tokenRowCount_deleteByToken_ne hne]
          · rw [if_neg hc2]

theorem processLog_tokenRowCount_ne {probe : Nat → Nat → Option Bool} {st : WState}
    {log : Log} {st' : WState} {c : Nat} (hne : log.address ≠ c)
    (hstep : processLog probe st log = .ok st') (tid : Nat) :
    tokenRowCount st'.owns c tid = tokenRowCount st.owns c tid := by
  unfold processLog at hstep
  cases hclass : classify probe st.cache log with
  | error e => rw [hclass] at hstep; cases hstep
  | ok cr =>
    rw [hclass] at hstep
    cases cr with
    | skip => cases hstep; rfl
    | unknown => cases hstep; rfl
    | found tt =>
      cases tt <;> dsimp only at hstep <;> (repeat' split at hstep) <;>
        cases hstep <;> dsimp only
      all_goals
        first
        | rfl
        | rw [tokenRowCount_updateOneInc_ne hne, tokenRowCount_updateOneInc_ne hne]
        | (rw [tokenRowCount_insertOne, tokenRowCount_deleteByOwnerToken_ne hne]
           simp [rowKey, hne])
        | rw [tokenRowCount_deleteByToken_ne hne]
        | (rename_i hap
           exact applyPairs_tokenRowCount_ne hne _ _ _ hap tid)

theorem headRun_last_mem (us : List (Option Nat)) : ∀ x y : Nat,
    headRun (some x) us = some y → y = x ∨ some y ∈ us := by
  induction us with
  | nil =>
    intro x y h
    simp only [headRun, List.foldl_nil] at h
    injection h with h
    exact Or.inl h.symm
  | cons u rest ih =>
    intro x y h
    cases u with
    | none =>
      rcases ih x y (by simpa [headRun, headUpdate] using h) with h1 | h2
      · exact Or.inl h1
      · exact Or.inr (List.mem_cons_of_mem _ h2)
    | some v =>
      rcases ih v y (by simpa [headRun, headUpdate] using h) with h1 | h2
      · subst h1
        exact Or.inr (List.mem_cons_self _ _)
      · exact Or.inr (List.mem_cons_of_mem _ h2)

/-! ## Claim theorems -/

/-- C1: for an ERC-1155-classified `TransferSingle` log (S5 of the spec:
`from = 1`, `to = 2`, `id = 9`, `value = 5`, both endpoints nonzero, value
positive) the worker performs NO write to `token_ownerships` whatsoever: the
decoded pair is collected into `transferred_tokens`, but the application loop
is nested inside the `TransferBatch` branch of the source, so only the
classification cache is written. This contradicts the claim that the two
`$inc` upserts are performed. -/
theorem C1_transfer_single_not_applied :
    processLog probeAllTrue ⟨[], []⟩ s5TransferSingleLog =
      .ok ⟨[(100, TokenType.erc1155)], []⟩ := by
  rfl

/-- C2 counterexample: an ERC-20 `Transfer` with `from = 1 ≠ 0` and decoded
value `0`, processed on an empty store, produces NO ownership rows (`owns`
stays `[]`), although the claim demands the two `$inc` upserts — which would
create the `(contract, from)` and `(contract, to)` rows — for every decoded
value including `value = 0`. The source guards the upserts with
`quantity > 0.0`. -/
theorem C2_counterexample_zero_value :
    processLog probeAllTrue ⟨[], []⟩ erc20ZeroValueLog =
      .ok ⟨[(100, TokenType.erc20)], []⟩ := by
  rfl

/-- C7 counterexample: starting from an empty store, the two ERC-721 transfer
logs `(from 1 to 2, token 7)` then `(from 3 to 4, token 7)` — the second from
an address that is not the recorded owner — leave TWO ownership rows for
`(contract 100, token_id 7)`, refuting the at-most-one-row invariant over all
sequences of processed logs. -/
theorem C7_counterexample_two_rows :
    processLogs probeAllTrue ⟨[], []⟩ [erc721TransferAB, erc721TransferCD] =
      .ok ⟨[(100, TokenType.erc721)],
        [⟨100, some 7, 2, 1⟩, ⟨100, some 7, 4, 1⟩]⟩ ∧
    tokenRowCount [⟨100, some 7, 2, 1⟩, ⟨100, some 7, 4, 1⟩] 100 7 = 2 := by
  exact ⟨rfl, rfl⟩

/-- C8 counterexample: with `ids = [1]` and `values = [10, 20]` — arrays of
unequal length — the `TransferBatch` pairing signals no decode error: it
returns the single pair `(1, 10)` and silently ignores the extra value, so the
log is applied. -/
theorem C8_counterexample_longer_values :
    batchPairs [1] [10, 20] = .ok [(1, 10)] ∧
    ¬ ([1] : List Nat).length = ([10, 20] : List Nat).length := by
  exact ⟨rfl, by decide⟩

/-- C9 counterexample: the head tracker publishes whatever `eth_blockNumber`
returns; after the cell has been populated with `5`, a later successful fetch
of `3` overwrites it with `3 < 5`, so the published values are not
monotonically non-decreasing over every sequence of updates. -/
theorem C9_counterexample_decreasing_head :
    headUpdate (headUpdate initialHeadCell (some 5)) (some 3) = some 3 ∧
    ¬ (5 : Nat) ≤ 3 := by
  exact ⟨rfl, by decide⟩

/-- C9 (amended): the shared head cell is initially empty; a failed fetch
leaves it unchanged and a successful fetch overwrites it with exactly the
fetched head, so the stored value is non-decreasing precisely when the
successfully fetched values are (in particular it never drops below a lower
bound common to all fetched values). -/
theorem C9_head_cell_semantics :
    initialHeadCell = none ∧
    (∀ cell, headUpdate cell none = cell) ∧
    (∀ cell v, headUpdate cell (some v) = some v) ∧
    (∀ (us : List (Option Nat)) (x y : Nat), headRun (some x) us = some y →
      (∀ u ∈ us, ∀ v, u = some v → x ≤ v) → x ≤ y) := by
  refine ⟨rfl, fun cell => rfl, fun cell v => rfl, ?_⟩
  intro us x y h hmono
  rcases headRun_last_mem us x y h with h1 | h2
  · exact h1 ▸ le_refl x
  · exact hmono _ h2 y rfl

theorem C9_head_cell_semantics_witness :
    headRun (some 2) [some 5] = some 5 ∧ (2 : Nat) ≤ 5 := by
  refine ⟨rfl, ?_⟩
  refine C9_head_cell_semantics.2.2.2 [some 5] 2 5 rfl ?_
  intro u hu v hv
  simp only [List.mem_singleton] at hu
  subst hu
  injection hv with h5
  omega

/-- C10: for every log whose emitting contract is cached as `ERC721`, the
ERC-721 branch decodes `topics[3]` without any arity check; whenever the log
has fewer than four topics that access is out of bounds and processing aborts
with the index panic. -/
theorem C10_cached_erc721_topic_oob :
    ∀ (probe : Nat → Nat → Option Bool) (st : WState) (log : Log),
      lookupCache st.cache log.address = some TokenType.erc721 →
      log.topics.length < 4 →
      processLog probe st log = .error .oob := by
  intro probe st log hc hlen
  have hclass : classify probe st.cache log = .ok (.found .erc721) := classify_cached hc
  unfold processLog
  rw [hclass]
  have h3 : log.topics[3]? = none := List.getElem?_eq_none (by omega)
  simp [topic, h3]

theorem C10_witness :
    processLog probeAllFail ⟨[(7, TokenType.erc721)], []⟩
      ⟨7, [sigTransfer, 1, 2], []⟩ = .error .oob := by
  exact C10_cached_erc721_topic_oob probeAllFail _ _ rfl (by decide)

/-- C5: the block cursor starts at the configured genesis block `14282071`;
every loop iteration leaves it unchanged or advances it by exactly 1, the
advance happening only when every log of the current block was processed
successfully; a failed log fetch leaves the whole state unchanged so the same
block is retried. -/
theorem C5_cursor_state_machine :
    initialLoopState.cursor = 14282071 ∧
    (∀ (head : Option Nat) (fetch : FetchResult) (probe : Nat → Nat → Option Bool)
        (ls ls' : LoopState), procStep head fetch probe ls = .ok ls' →
      ls.cursor ≤ ls'.cursor ∧
      (ls'.cursor = ls.cursor ∨
        (ls'.cursor = ls.cursor + 1 ∧
          ∃ logs, fetch = .ok logs ∧ processLogs probe ls.st logs = .ok ls'.st)) ∧
      (fetch = .err → ls' = ls)) := by
  refine ⟨rfl, ?_⟩
  intro head fetch probe ls ls' hstep
  unfold procStep at hstep
  cases head with
  | none =>
    cases hstep
    exact ⟨le_refl _, Or.inl rfl, fun _ => rfl⟩
  | some h =>
    dsimp only at hstep
    by_cases hle : ls.cursor ≤ h
    · rw [if_pos hle] at hstep
      cases fetch with
      | err =>
        cases hstep
        exact ⟨le_refl _, Or.inl rfl, fun _ => rfl⟩
      | ok logs =>
        dsimp only at hstep
        cases hpr : processLogs probe ls.st logs with
        | error e => rw [hpr] at hstep; cases hstep
        | ok st2 =>
          rw [hpr] at hstep
          cases hstep
          exact ⟨Nat.le_succ _, Or.inr ⟨rfl, logs, rfl, hpr⟩, fun hzz => by cases hzz⟩
    · rw [if_neg hle] at hstep
      cases hstep
      exact ⟨le_refl _, Or.inl rfl, fun _ => rfl⟩

theorem C5_cursor_state_machine_witness :
    procStep none .err probeAllFail initialLoopState = .ok initialLoopState ∧
    initialLoopState.cursor ≤ initialLoopState.cursor := by
  refine ⟨rfl, ?_⟩
  exact (C5_cursor_state_machine.2 none .err probeAllFail initialLoopState
    initialLoopState rfl).1

theorem processLog_cache_stable {probe : Nat → Nat → Option Bool} {st : WState}
    {log : Log} {st' : WState} {a : Nat} {tt : TokenType}
    (hstep : processLog probe st log = .ok st')
    (hc : lookupCache st.cache a = some tt) :
    lookupCache st'.cache a = some tt := by
  rcases processLog_cache_shape hstep with h | ⟨tt', hclass, h⟩
  · rw [h]
    exact hc
  · by_cases hab : log.address = a
    · have hc' : lookupCache st.cache log.address = some tt := by rw [hab]; exact hc
      have hcc : classify probe st.cache log = .ok (.found tt) := classify_cached hc'
      rw [hclass] at hcc
      injection hcc with hcc
      injection hcc with hcc
      subst hcc
      rw [h, hab]
      exact lookupCache_cacheUpsert_self _ _ _
    · rw [h, lookupCache_cacheUpsert_ne _ _ (fun hh => hab hh.symm)]
      exact hc

/-- C6: once a `token_type` has been written to the `contract_addresses` cache
for an address, no processed log ever changes it: the classifier short-circuits
on the cache hit and the subsequent upsert writes back the same value, so the
cached type survives every successfully processed log sequence unchanged. -/
theorem C6_cached_type_never_changes :
    ∀ (probe : Nat → Nat → Option Bool) (logs : List Log) (st st' : WState)
      (a : Nat) (tt : TokenType), processLogs probe st logs = .ok st' →
      lookupCache st.cache a = some tt → lookupCache st'.cache a = some tt := by
  intro probe logs
  induction logs with
  | nil =>
    intro st st' a tt h hc
    cases h
    exact hc
  | cons l ls ih =>
    intro st st' a tt h hc
    unfold processLogs at h
    cases hstep : processLog probe st l with
    | error e => rw [hstep] at h; cases h
    | ok st1 =>
      rw [hstep] at h
      exact ih st1 st' a tt h (processLog_cache_stable hstep hc)

theorem C6_cached_type_never_changes_witness :
    lookupCache [(100, TokenType.erc721)] 100 = some TokenType.erc721 := by
  exact C6_cached_type_never_changes probeAllTrue [erc721TransferAB]
    ⟨[(100, TokenType.erc721)], []⟩
    ⟨[(100, TokenType.erc721)], [⟨100, some 7, 2, 1⟩]⟩ 100 TokenType.erc721 rfl rfl

/-- C8 (amended): the `TransferBatch` pairing produces exactly one pair per
element of `ids`. When `values` is at least as long as `ids` (all read values
within `u128` range) it succeeds with `ids.zip values` — in particular, when
`values` is strictly longer, the extra entries are silently ignored and no
decode error is signalled. A decode error (the index panic) is signalled only
when `values` is strictly shorter than `ids`. -/
theorem C8_batch_pairing :
    ∀ (ids vals : List Nat), (∀ v ∈ vals, v < 2 ^ 128) →
      (ids.length ≤ vals.length →
        batchPairs ids vals = .ok (ids.zip vals) ∧
        (ids.zip vals).length = ids.length) ∧
      (vals.length < ids.length → batchPairs ids vals = .error .oob) := by
  intro ids
  induction ids with
  | nil =>
    intro vals hv
    constructor
    · intro _
      exact ⟨rfl, rfl⟩
    · intro hlt
      exact (Nat.not_lt_zero _ hlt).elim
  | cons i is ih =>
    intro vals hv
    cases vals with
    | nil =>
      constructor
      · intro hle
        simp at hle
      · intro _
        rfl
    | cons v vs =>
      have hvhead : v < 2 ^ 128 := hv v (List.mem_cons_self _ _)
      have hvtail : ∀ u ∈ vs, u < 2 ^ 128 := fun u hu => hv u (List.mem_cons_of_mem _ hu)
      have ha : asU128 v = .ok v := by unfold asU128; rw [if_pos hvhead]
      have ihvs := ih vs hvtail
      constructor
      · intro hle
        have hle' : is.length ≤ vs.length := by simpa using hle
        have h1 := (ihvs.1 hle').1
        have h2 := (ihvs.1 hle').2
        constructor
        · unfold batchPairs
          rw [ha, h1]
          rfl
        · simp only [List.zip_cons_cons, List.length_cons, h2]
      · intro hlt
        have hlt' : vs.length < is.length := by simpa using hlt
        unfold batchPairs
        rw [ha, ihvs.2 hlt']

theorem C8_batch_pairing_witness :
    batchPairs [3] [4] = .ok ([(3, 4)] : List (Nat × Nat)) ∧
    (([3] : List Nat).zip [4]).length = ([3] : List Nat).length := by
  exact (C8_batch_pairing [3] [4] (by decide)).1 (by decide)

/-- C4: the classifier consults the cache first and returns a stored type
as-is; otherwise a 3-topic `Transfer` log is `ERC20` with no probe (the result
does not depend on the probe), a 4-topic `Transfer` log is `ERC721` exactly
when `supportsInterface(0x80ac58cd)` returns `true`, a `TransferSingle` or
`TransferBatch` log is `ERC1155` exactly when `supportsInterface(0xd9b67a26)`
returns `true`; a failed probe skips the log with no write to either
collection, and the cache is written only on a positive classification. -/
theorem C4_classifier_protocol :
    (∀ (probe : Nat → Nat → Option Bool) (cache : List (Nat × TokenType)) (log : Log)
        (tt : TokenType), lookupCache cache log.address = some tt →
      classify probe cache log = .ok (.found tt)) ∧
    (∀ (probe : Nat → Nat → Option Bool) (cache : List (Nat × TokenType)) (log : Log),
      lookupCache cache log.address = none →
      log.topics[0]? = some sigTransfer → log.topics.length = 3 →
      classify probe cache log = .ok (.found .erc20)) ∧
    (∀ (probe : Nat → Nat → Option Bool) (cache : List (Nat × TokenType)) (log : Log),
      lookupCache cache log.address = none →
      log.topics[0]? = some sigTransfer → log.topics.length = 4 →
      (classify probe cache log = .ok (.found .erc721) ↔
        probe log.address erc721InterfaceId = some true)) ∧
    (∀ (probe : Nat → Nat → Option Bool) (cache : List (Nat × TokenType)) (log : Log)
        (t0 : Nat), lookupCache cache log.address = none →
      log.topics[0]? = some t0 → (t0 = sigTransferSingle ∨ t0 = sigTransferBatch) →
      (classify probe cache log = .ok (.found .erc1155) ↔
        probe log.address erc1155InterfaceId = some true)) ∧
    (∀ (probe : Nat → Nat → Option Bool) (cache : List (Nat × TokenType)) (log : Log),
      lookupCache cache log.address = none →
      log.topics[0]? = some sigTransfer → log.topics.length = 4 →
      probe log.address erc721InterfaceId = none →
      classify probe cache log = .ok .skip) ∧
    (∀ (probe : Nat → Nat → Option Bool) (cache : List (Nat × TokenType)) (log : Log)
        (t0 : Nat), lookupCache cache log.address = none →
      log.topics[0]? = some t0 → (t0 = sigTransferSingle ∨ t0 = sigTransferBatch) →
      probe log.address erc1155InterfaceId = none →
      classify probe cache log = .ok .skip) ∧
    (∀ (probe : Nat → Nat → Option Bool) (st : WState) (log : Log),
      classify probe st.cache log = .ok .skip → processLog probe st log = .ok st) ∧
    (∀ (probe : Nat → Nat → Option Bool) (st : WState) (log : Log) (st' : WState),
      processLog probe st log = .ok st' →
      st'.cache = st.cache ∨ ∃ tt, classify probe st.cache log = .ok (.found tt) ∧
        st'.cache = cacheUpsert st.cache log.address tt) := by
  refine ⟨?_, ?_, ?_, ?_, ?_, ?_, ?_, ?_⟩
  · intro probe cache log tt hc
    exact classify_cached hc
  · intro probe cache log hnone ht0 hlen
    unfold classify
    rw [hnone]
    simp [topic, ht0, hlen]
  · intro probe cache log hnone ht0 hlen
    constructor
    · intro h
      cases hp : probe log.address erc721InterfaceId with
      | none =>
        unfold classify at h
        rw [hnone] at h
        simp [topic, ht0, hlen, hp] at h
      | some b =>
        cases b
        · unfold classify at h
          rw [hnone] at h
          simp [topic, ht0, hlen, hp] at h
        · rfl
    · intro hp
      unfold classify
      rw [hnone]
      simp [topic, ht0, hlen, hp]
  · intro probe cache log t0 hnone ht0 ht
    have hne1 : ¬ (t0 == sigTransfer) = true := by
      rcases ht with h | h <;> subst h <;> simp [sigTransfer, sigTransferSingle, sigTransferBatch]
    have hor : (t0 == sigTransferSingle || t0 == sigTransferBatch) = true := by
      rcases ht with h | h <;> simp [h]
    constructor
    · intro h
      cases hp : probe log.address erc1155InterfaceId with
      | none =>
        unfold classify at h
        rw [hnone] at h
        simp [topic, ht0, hne1, hor, hp] at h
      | some b =>
        cases b
        · unfold classify at h
          rw [hnone] at h
          simp [topic, ht0, hne1, hor, hp] at h
        · rfl
    · intro hp
      unfold classify
      rw [hnone]
      simp [topic, ht0, hne1, hor, hp]
  · intro probe cache log hnone ht0 hlen hp
    unfold classify
    rw [hnone]
    simp [topic, ht0, hlen, hp]
  · intro probe cache log t0 hnone ht0 ht hp
    have hne1 : ¬ (t0 == sigTransfer) = true := by
      rcases ht with h | h <;> subst h <;> simp [sigTransfer, sigTransferSingle, sigTransferBatch]
    have hor : (t0 == sigTransferSingle || t0 == sigTransferBatch) = true := by
      rcases ht with h | h <;> simp [h]
    unfold classify
    rw [hnone]
    simp [topic, ht0, hne1, hor, hp]
  · intro probe st log h
    unfold processLog
    rw [h]
  · intro probe st log st' h
    exact processLog_cache_shape h

theorem C4_classifier_protocol_witness :
    classify probeAllTrue [(5, TokenType.erc1155)] ⟨5, [], []⟩ =
      .ok (.found .erc1155) ∧
    classify probeAllFail [] erc20PositiveLog = .ok (.found .erc20) ∧
    processLog probeAllFail ⟨[], []⟩ erc721TransferAB = .ok ⟨[], []⟩ := by
  refine ⟨?_, ?_, ?_⟩
  · exact C4_classifier_protocol.1 probeAllTrue _ _ _ rfl
  · exact C4_classifier_protocol.2.1 probeAllFail _ _ rfl rfl rfl
  · exact C4_classifier_protocol.2.2.2.2.2.2.1 probeAllFail _ _
      (C4_classifier_protocol.2.2.2.2.1 probeAllFail _ _ rfl rfl rfl rfl)

/-- C2 (amended): for an ERC-20-classified `Transfer` log, a zero `from`
address means no action; otherwise, when the decoded value is positive the
worker performs exactly the two upserting `$inc` operations (decrement the
`(contract, from)` row, increment the `(contract, to)` row, creating absent
rows with `quantity = ±value`), but when the decoded value is `0` it performs
no ownership write at all (the source guards the upserts with
`quantity > 0.0`). -/
theorem C2_erc20_branch :
    ∀ (probe : Nat → Nat → Option Bool) (st : WState) (log : Log) (st' : WState)
      (t0 t1 t2 v : Nat),
      log.topics = [t0, t1, t2] →
      log.data = [.uint v] →
      v < 2 ^ 128 →
      classify probe st.cache log = .ok (.found .erc20) →
      processLog probe st log = .ok st' →
      ((addrOf t1 = zeroAddress → st'.owns = st.owns) ∧
       (addrOf t1 ≠ zeroAddress → v = 0 → st'.owns = st.owns) ∧
       (addrOf t1 ≠ zeroAddress → 0 < v →
         st'.owns = updateOneInc log.address (addrOf t2) none (v : Int)
           (updateOneInc log.address (addrOf t1) none (-(v : Int)) st.owns))) := by
  intro probe st log st' t0 t1 t2 v htop hdata hv hclass hstep
  unfold processLog at hstep
  rw [hclass] at hstep
  dsimp only at hstep
  have ht1 : topic log 1 = .ok t1 := by simp [topic, htop]
  have ht2 : topic log 2 = .ok t2 := by simp [topic, htop]
  have hdq : decodeUint log.data = .ok v := by rw [hdata]; rfl
  have ha : asU128 v = .ok v := by unfold asU128; rw [if_pos hv]
  rw [ht1] at hstep
  dsimp only at hstep
  refine ⟨?_, ?_, ?_⟩
  · intro h1
    rw [if_neg (by simp [h1])] at hstep
    cases hstep
    rfl
  · intro h1 h0
    subst h0
    rw [if_pos (by simp [h1]), hdq] at hstep
    dsimp only at hstep
    rw [ha] at hstep
    dsimp only at hstep
    rw [if_neg (by omega : ¬ (0 : Nat) < 0)] at hstep
    cases hstep
    rfl
  · intro h1 h0
    rw [if_pos (by simp [h1]), hdq] at hstep
    dsimp only at hstep
    rw [ha] at hstep
    dsimp only at hstep
    rw [if_pos h0, ht2] at hstep
    dsimp only at hstep
    cases hstep
    rfl

theorem C2_erc20_branch_witness :
    (⟨[(100, TokenType.erc20)],
       [⟨100, none, 1, -50⟩, ⟨100, none, 2, 50⟩]⟩ : WState).owns =
      updateOneInc 100 2 none 50 (updateOneInc 100 1 none (-50) []) := by
  exact (C2_erc20_branch probeAllTrue ⟨[], []⟩ erc20PositiveLog
    ⟨[(100, TokenType.erc20)], [⟨100, none, 1, -50⟩, ⟨100, none, 2, 50⟩]⟩
    sigTransfer 1 2 50 rfl rfl (by decide) rfl rfl).2.2 (by decide) (by decide)

/-- C3: for an ERC-721-classified `Transfer` log with four topics: when both
`from` and `to` are nonzero the worker first deletes every row matching
`(contract, owner = from, token_id)` and then inserts the single row
`(contract, token_id, owner = to, quantity = 1)`; when `to = 0` it deletes
every row matching `(contract, token_id)` regardless of owner; when `from = 0`
and `to ≠ 0` it takes no action on the ownership store. -/
theorem C3_erc721_branch :
    ∀ (probe : Nat → Nat → Option Bool) (st : WState) (log : Log) (st' : WState)
      (t0 t1 t2 t3 : Nat),
      log.topics = [t0, t1, t2, t3] →
      classify probe st.cache log = .ok (.found .erc721) →
      processLog probe st log = .ok st' →
      ((addrOf t1 ≠ zeroAddress → addrOf t2 ≠ zeroAddress →
          st'.owns = insertOne ⟨log.address, some t3, addrOf t2, 1⟩
            (deleteByOwnerToken log.address (addrOf t1) t3 st.owns)) ∧
       (addrOf t2 = zeroAddress → st'.owns = deleteByToken log.address t3 st.owns) ∧
       (addrOf t1 = zeroAddress → addrOf t2 ≠ zeroAddress → st'.owns = st.owns)) := by
  intro probe st log st' t0 t1 t2 t3 htop hclass hstep
  unfold processLog at hstep
  rw [hclass] at hstep
  dsimp only at hstep
  have ht1 : topic log 1 = .ok t1 := by simp [topic, htop]
  have ht2 : topic log 2 = .ok t2 := by simp [topic, htop]
  have ht3 : topic log 3 = .ok t3 := by simp [topic, htop]
  rw [ht3] at hstep
  dsimp only at hstep
  rw [ht1] at hstep
  dsimp only at hstep
  rw [ht2] at hstep
  dsimp only at hstep
  refine ⟨?_, ?_, ?_⟩
  · intro h1 h2
    rw [if_pos (by simp [h1, h2])] at hstep
    cases hstep
    rfl
  · intro h2
    rw [if_neg (by simp [h2]), if_pos (by simp [h2])] at hstep
    cases hstep
    rfl
  · intro h1 h2
    rw [if_neg (by simp [h1]), if_neg (by simp [h2])] at hstep
    cases hstep
    rfl

theorem C3_erc721_branch_witness :
    (⟨[(100, TokenType.erc721)], [⟨100, some 7, 2, 1⟩]⟩ : WState).owns =
      insertOne ⟨100, some 7, 2, 1⟩ (deleteByOwnerToken 100 1 7 []) := by
  exact (C3_erc721_branch probeAllTrue ⟨[], []⟩ erc721TransferAB
    ⟨[(100, TokenType.erc721)], [⟨100, some 7, 2, 1⟩]⟩
    sigTransfer 1 2 7 rfl rfl rfl).1 (by decide) (by decide)

/-- C7 (amended): the at-most-one-row invariant for an ERC-721
`(contract, token_id)` pair is preserved by every successfully processed log
PROVIDED that, whenever the log comes from that contract, every existing row
for the pair is owned by the log's `from` address (topic 1) — the situation on
a consistent chain. Without that proviso a transfer whose `from` is not the
recorded owner inserts a second row (see the counterexample). -/
theorem C7_erc721_at_most_one_row :
    ∀ (probe : Nat → Nat → Option Bool) (st : WState) (log : Log) (st' : WState)
      (c tid : Nat),
      lookupCache st.cache c = some TokenType.erc721 →
      processLog probe st log = .ok st' →
      (log.address = c → ∀ t1, log.topics[1]? = some t1 →
        ∀ r ∈ st.owns, rowKey c tid r = true → r.owner = addrOf t1) →
      tokenRowCount st.owns c tid ≤ 1 →
      tokenRowCount st'.owns c tid ≤ 1 := by
  intro probe st log st' c tid hcache hstep hwf hinv
  by_cases hne : log.address = c
  case neg =>
    rw [processLog_tokenRowCount_ne hne hstep tid]
    exact hinv
  case pos =>
    subst hne
    have hclass : classify probe st.cache log = .ok (.found .erc721) :=
      classify_cached hcache
    unfold processLog at hstep
    rw [hclass] at hstep
    dsimp only at hstep
    cases h3 : topic log 3 with
    | error e => rw [h3] at hstep; cases hstep
    | ok t3 =>
      rw [h3] at hstep
      dsimp only at hstep
      cases h1 : topic log 1 with
      | error e => rw [h1] at hstep; cases hstep
      | ok t1 =>
        rw [h1] at hstep
        dsimp only at hstep
        cases h2 : topic log 2 with
        | error e => rw [h2] at hstep; cases hstep
        | ok t2 =>
          rw [h2] at hstep
          dsimp only at hstep
          have ht1get : log.topics[1]? = some t1 := by
            unfold topic at h1
            cases hg : log.topics[1]? with
            | none => rw [hg] at h1; cases h1
            | some x =>
              rw [hg] at h1
              injection h1 with h1
              rw [h1]
          by_cases hcc : (addrOf t1 != zeroAddress && addrOf t2 != zeroAddress) = true
          · rw [if_pos hcc] at hstep
            cases hstep
            dsimp only
            by_cases htid : t3 = tid
            · subst htid
              rw [tokenRowCount_insertOne,
                tokenRowCount_deleteByOwnerToken_self _ _ _ _ (hwf rfl t1 ht1get)]
              simp [rowKey]
            · rw [tokenRowCount_insertOne,
                tokenRowCount_deleteByOwnerToken_other htid _ _ _]
              have hz : rowKey log.address tid
                  (⟨log.address, some t3, addrOf t2, 1⟩ : Row) = false := by
                simp [rowKey, htid]
              rw [hz]
              simpa using hinv
          · rw [if_neg hcc] at hstep
            by_cases hz : (addrOf t2 == zeroAddress) = true
            · rw [if_pos hz] at hstep
              cases hstep
              dsimp only
              by_cases htid : t3 = tid
              · subst htid
                rw [tokenRowCount_deleteByToken_self]
                omega
              · rw [tokenRowCount_deleteByToken_other htid]
                exact hinv
            · rw [if_neg hz] at hstep
              cases hstep
              exact hinv

theorem C7_erc721_at_most_one_row_witness :
    tokenRowCount [(⟨100, some 7, 2, 1⟩ : Row)] 100 7 ≤ 1 := by
  refine C7_erc721_at_most_one_row probeAllTrue ⟨[(100, TokenType.erc721)], []⟩
    erc721TransferAB ⟨[(100, TokenType.erc721)], [⟨100, some 7, 2, 1⟩]⟩ 100 7
    rfl rfl ?_ ?_
  · intro _ t1 _ r hr
    exact absurd hr (List.not_mem_nil r)
  · exact Nat.zero_le 1
